import Mathlib

/-!
Shallow embedding of `molplotly/main.py` (repository QcoJuanDavidMarin/molplotly) and
proofs about its hover-resolution and tooltip/content pipeline.

The embedding follows the source file: `str2bool` (lines 22-23), the image-cache build
loop of `add_molecules` (lines 224-243), the curve-to-group map construction
(lines 246-261), and the Dash callback `display_hover` (lines 300-442).  External
libraries are modelled as follows:

* pandas: a dataframe is an ordered list of rows; a row is an association list from
  column name to cell value; `iloc`, boolean-mask filtering with `reset_index` and
  `query` are modelled directly on lists, with out-of-range access returning an
  `Except.error` where pandas raises.  The dataframe is assumed to carry its default
  integer range index.
* RDKit / base64: an abstract `Chem` record of functions; `Chem.MolFromSmiles`
  returning `None` on an undecodable SMILES is `decode` returning `none`, in which
  case `DrawMolecule(None)` raises, modelled as an `Except.error`.
* Python `textwrap.fill` with its default options (`replace_whitespace=True`,
  `drop_whitespace=True`, `break_long_words=True`) is modelled faithfully for
  hyphen-free, tab-free text by `textwrapFill` below, following the greedy
  chunk-filling loop of CPython's `TextWrapper._wrap_chunks`.
* Python `str.lower`, string slicing, `len`, `int(...)` are modelled on the
  character list of a `String` (`len` counts code points, as in Python).

Purely presentational plumbing (Dash layout, fonts, sizes, the static-export helpers
`patch_file` / `write_file` / `make_static`, and the unused `molplotly_figure`
wrapper) carries no logic touched by the verified properties and is elided.
-/

deriving instance DecidableEq for Except

namespace Molplotly

/-- Dataframe cell value / typed group value: string, integer or boolean.  Floating
point columns are outside the model (no claim depends on float semantics). -/
inductive Value
  | vStr (s : String)
  | vInt (n : Int)
  | vBool (b : Bool)
deriving DecidableEq, Repr

/-- A dataframe row: association list from column name to cell value. -/
abbrev Row := List (String × Value)

/-- Python `row[col]`: first cell of the row with the given column name. -/
def getCol : Row → String → Option Value
  | [], _ => none
  | (k, v) :: r, c => if k = c then some v else getCol r c

/-- Declared dtype of a dataframe column (`df[col].dtype`): the code tests `== bool`,
`elif == int`, and treats every other dtype through the string fallback branch. -/
inductive DType
  | dbool
  | dint
  | dother
deriving DecidableEq

/-- An RDKit molecule object (the result of a successful `Chem.MolFromSmiles`). -/
structure Mol where
  ofSmiles : String
deriving DecidableEq

/-- Interface to the chemistry and encoding libraries: `decode` models
`Chem.MolFromSmiles` (`none` where RDKit returns `None`), `draw` models the
`MolDraw2DSVG` drawing pipeline ending in `GetDrawingText`, and `b64` models
`base64.b64encode` together with the `repr(...)[2:-1]` trimming. -/
structure Chem where
  decode : String → Option Mol
  draw : Mol → String
  b64 : String → String

/-- Image payload built by main.py lines 232-241 and stored in the `col + "_img"`
cache cell. -/
def imgStr (chem : Chem) (m : Mol) : String :=
  "data:image/svg+xml;base64," ++ chem.b64 (chem.draw m)

/-- Python exceptions that can abort `add_molecules` before the app exists:
`configError` is the `ValueError` of line 259, `decodeError` the RDKit failure on an
undecodable SMILES cell, `typeError` / `keyError` pandas cell-access failures,
`intParseError` the `ValueError` of `int(...)` on a non-numeric trace label. -/
inductive SetupError
  | configError
  | decodeError
  | typeError
  | keyError
  | intParseError
deriving DecidableEq

/-- Python exceptions that can escape the `display_hover` callback:
`ilocOutOfRange` is the pandas IndexError of `.iloc[num]`, `keyError` a failed
dict/row lookup, `nameError` a reference to a never-assigned `curve_dict`/`color_col`,
`emptyQuery` the IndexError of `.values[0]` on an empty query result, `typeError` an
operation on a cell of the wrong runtime type. -/
inductive HoverError
  | ilocOutOfRange
  | keyError
  | nameError
  | emptyQuery
  | typeError
deriving DecidableEq

/-- Left-to-right effectful map over `Except`, the shape of every `for` loop of the
source that can raise: the first raised exception aborts the whole loop. -/
def mapE {ε α β : Type} (f : α → Except ε β) : List α → Except ε (List β)
  | [] => .ok []
  | a :: l =>
    match f a with
    | .error e => .error e
    | .ok b =>
      match mapE f l with
      | .error e => .error e
      | .ok bs => .ok (b :: bs)

/-- Python `str.lower` (ASCII letters; the labels appearing in the claims are ASCII). -/
def pyLower (s : String) : String :=
  String.mk (s.data.map Char.toLower)

/-- main.py lines 22-23: `str2bool(v)` is `v.lower() in ("yes", "true", "t", "1")`. -/
def str2bool (v : String) : Bool :=
  ["yes", "true", "t", "1"].contains (pyLower v)

/-- Accumulating decimal parse of a digit list; `none` on a non-digit. -/
def digitsVal : List Char → Nat → Option Nat
  | [], acc => some acc
  | c :: cs, acc =>
    if c.isDigit then digitsVal cs (acc * 10 + (c.toNat - 48)) else none

/-- Python `int(label)` on a string label: optional minus sign and decimal digits;
`none` where Python raises `ValueError`. -/
def pyInt (s : String) : Option Int :=
  match s.data with
  | [] => none
  | '-' :: cs =>
    match cs with
    | [] => none
    | _ => (digitsVal cs 0).map (fun n => -(n : Int))
  | cs => (digitsVal cs 0).map (fun n => (n : Int))

/-- Python slice `s[:n]` (by code points, as Python slices by characters). -/
def strTake (s : String) (n : Nat) : String :=
  String.mk (s.data.take n)

/-- Python slice `s[n:]`. -/
def strDrop (s : String) (n : Nat) : String :=
  String.mk (s.data.drop n)

/-- Whitespace normalization of `textwrap` (`expand_tabs` plus
`replace_whitespace=True`): every whitespace character becomes a space.  Tabs expand
to a single space here instead of a tab stop; the verified text is tab-free. -/
def normWs (c : Char) : Char := if c.isWhitespace then ' ' else c

/-- Chunking of `textwrap._split` without hyphen splitting (faithful for hyphen-free
text): maximal runs of spaces and of non-spaces, in order. -/
def mkChunks (s : String) : List String :=
  (List.splitBy (fun a b => (a == ' ') == (b == ' ')) (s.data.map normWs)).map String.mk

/-- Chunks `textwrap` treats as whitespace, i.e. with `chunk.strip() == ''`. -/
def isSpaceChunk (s : String) : Bool := s.data.all (fun c => c == ' ')

/-- Greedy filling of one output line from `curLen` characters already placed
(CPython `TextWrapper._wrap_chunks` inner loop plus `_handle_long_word` with
`break_long_words=True`): take chunks while they fit; a first non-fitting chunk that
is itself longer than `width` is broken at the remaining space (at least one
character when `width` is zero).  Returns the chunks placed on the line and the
chunks left over. -/
def fillLine (width : Nat) : Nat → List String → List String × List String
  | _, [] => ([], [])
  | curLen, c :: cs =>
    if curLen + c.length ≤ width then
      let p := fillLine width (curLen + c.length) cs
      (c :: p.1, p.2)
    else if width < c.length then
      let spaceLeft := if 1 ≤ width then width - curLen else 1
      ([strTake c spaceLeft], strDrop c spaceLeft :: cs)
    else ([], c :: cs)

/-- `drop_whitespace`: remove the single trailing whitespace chunk of a built line. -/
def dropTrailingWs (line : List String) : List String :=
  match line.getLast? with
  | some l => if isSpaceChunk l then line.dropLast else line
  | none => line

/-- Outer loop of `TextWrapper._wrap_chunks`, one output line per iteration, bounded
by fuel: drop one leading whitespace chunk once a line has been emitted, fill a line
greedily, drop its trailing whitespace chunk, emit it if non-empty. -/
def wrapGo (width : Nat) : Nat → List String → Bool → List String
  | 0, _, _ => []
  | _ + 1, [], _ => []
  | fuel + 1, c :: cs, emitted =>
    let chunks := if emitted && isSpaceChunk c then cs else c :: cs
    let p := fillLine width 0 chunks
    let line := dropTrailingWs p.1
    if line.isEmpty then wrapGo width fuel p.2 emitted
    else String.join line :: wrapGo width fuel p.2 true

/-- Fuel bound for `wrapGo`: total characters plus number of chunks.  Every
iteration of the loop strictly decreases this quantity (`wrapGo_stable` below), so
`chunkMeasure chunks + 1` iterations always finish the work. -/
def chunkMeasure (l : List String) : Nat := l.foldr (fun s n => s.length + 1 + n) 0

/-- Python `textwrap.wrap(text, width=width)` (default options, hyphen-free text). -/
def wrapLines (width : Nat) (chunks : List String) : List String :=
  wrapGo width (chunkMeasure chunks + 1) chunks false

/-- Python `textwrap.fill(text, width=width)` = newline-join of `textwrap.wrap`. -/
def textwrapFill (width : Nat) (s : String) : String :=
  String.intercalate "\n" (wrapLines width (mkChunks s))

/-- Total character count of a chunk list. -/
def sumLen (l : List String) : Nat := l.foldr (fun s n => s.length + n) 0

/-- Words of a text: its non-whitespace chunks, in order. -/
def wordsOf (s : String) : List String :=
  (mkChunks s).filter (fun c => !isSpaceChunk c)

/-- One iteration of the inner cache-build loop (main.py 228-243) for row `r` and
structure column `col`: read the SMILES cell, parse it with RDKit, draw and encode
it, producing the new `col + "_img"` cell.  An undecodable cell makes
`DrawMolecule(None)` raise, modelled `.error .decodeError`; there is no handler. -/
def processCell (chem : Chem) (r : Row) (col : String) : Except SetupError (String × Value) :=
  match getCol r col with
  | some (.vStr s) =>
    match chem.decode s with
    | some m => .ok (col ++ "_img", .vStr (imgStr chem m))
    | none => .error .decodeError
  | some _ => .error .typeError
  | none => .error .keyError

/-- Cache row for one dataframe row: the `df[smiles_col]` projection of the row
(main.py 224) plus one image cell per structure column (main.py 227-243). -/
def processRow (chem : Chem) (cols : List String) (r : Row) : Except SetupError Row :=
  match mapE (processCell chem r) cols with
  | .error e => .error e
  | .ok imgs => .ok (cols.filterMap (fun c => (getCol r c).map (fun v => (c, v))) ++ imgs)

/-- Image-cache build: the dataframe `df_data` after the loop of main.py 227-243. -/
def buildCache (chem : Chem) (cols : List String) (rows : List Row) :
    Except SetupError (List Row) :=
  mapE (processRow chem cols) rows

/-- One plotly trace as read by the source: `x["name"]` and `x.marker["color"]`. -/
structure SeriesData where
  name : String
  color : String
deriving DecidableEq

/-- The plotly figure as seen by the source: its traces and its axis title texts. -/
structure Fig where
  data : List SeriesData
  xLabel : String
  yLabel : String

/-- The dataframe: ordered rows plus the declared dtype of each column. -/
structure DataFrame where
  rows : List Row
  dtype : String → DType

/-- Keyword arguments of `add_molecules` that carry logic.  Purely presentational
options (svg_size, alpha, img_alpha, width, fontfamily, fontsize, port) are elided. -/
structure Config where
  smiles_col : List String
  show_img : Bool
  title_col : Option String
  show_coords : Bool
  caption_cols : Option (List String)
  caption_transform : List (String × (Value → String))
  color_col : Option String
  wrap : Bool
  wraplen : Nat

/-- Coercion of a trace label to the group column's declared dtype
(main.py 250-257): bool dtype via `str2bool`, int dtype via `int(...)` (which raises
on a non-numeric label), every other dtype keeps the label string. -/
def coerceLabel (dt : DType) (label : String) : Except SetupError Value :=
  match dt with
  | .dbool => .ok (.vBool (str2bool label))
  | .dint =>
    match pyInt label with
    | some n => .ok (.vInt n)
    | none => .error .intParseError
  | .dother => .ok (.vStr label)

/-- The closure state captured by `display_hover`: configuration, figure, dataframe,
image cache, and the `curve_dict` / `colors` dictionaries built at setup.
`curve_dict` is `none` in the single-trace case, where the Python variable is never
assigned. -/
structure App where
  cfg : Config
  fig : Fig
  df : DataFrame
  df_data : List Row
  curve_dict : Option (List Value)
  colors : List String

/-- main.py `add_molecules` (lines 145-455) reduced to its state construction:
build the image cache `df_data` (lines 224-243), then, when the figure has other
than one trace, require `color_col` — raising the `ValueError` of line 259,
modelled `.configError` — and build `curve_dict` (lines 250-257) and `colors`
(line 249); with a single trace, `colors` is the dictionary of line 246.  Dash
layout and callback wiring are elided.  On `.error` no app is returned, so no hover
event can ever be served. -/
def add_molecules (chem : Chem) (fig : Fig) (df : DataFrame) (cfg : Config) :
    Except SetupError App :=
  match buildCache chem cfg.smiles_col df.rows with
  | .error e => .error e
  | .ok df_data =>
    if fig.data.length ≠ 1 then
      match cfg.color_col with
      | some cc =>
        match mapE (fun x => coerceLabel (df.dtype cc) x.name) fig.data with
        | .error e => .error e
        | .ok cd => .ok ⟨cfg, fig, df, df_data, some cd, fig.data.map (fun x => x.color)⟩
      | none => .error .configError
    else
      .ok ⟨cfg, fig, df, df_data, none, ["black"]⟩

/-- Tooltip anchor rectangle `pt["bbox"]`, passed through untouched. -/
structure BBox where
  x0 : Int
  y0 : Int
  x1 : Int
  y1 : Int
deriving DecidableEq

/-- The first element of `hoverData["points"]`: curve number, in-curve point number,
anchor box and the hovered point's data coordinates. -/
structure HoverPoint where
  bbox : BBox
  num : Nat
  curve_num : Nat
  x : Value
  y : Value
deriving DecidableEq

/-- Value of the smiles-menu input: a single column name or a multi-selection. -/
inductive SmilesSel
  | single (s : String)
  | multi (l : List String)
deriving DecidableEq

/-- One hover-box child element, keeping the data-dependent attributes (image source,
text, title color) and eliding constant styling. -/
inductive Element
  | img (src : String)
  | h2 (text : String) (color : String)
  | p (text : String)
deriving DecidableEq

/-- Return value of the Dash callback: the tooltip visibility flag (the `show`
output), anchor box, children; `no_update` is modelled as `none`. -/
structure HoverResult where
  visible : Bool
  bbox : Option BBox
  children : Option (List Element)
deriving DecidableEq

/-- Python `str(v)` for a cell value interpolated into an f-string. -/
def valueDisplay : Value → String
  | .vStr s => s
  | .vInt n => toString n
  | .vBool b => if b then "True" else "False"

/-- Transform lookup: the source guards `label in caption_transform` and then calls
`caption_transform[label]`. -/
def lookupTransform (cfg : Config) (c : String) : Option (Value → String) :=
  (cfg.caption_transform.find? (fun q => q.1 == c)).map (fun q => q.2)

/-- Row resolution of main.py 314-318.  Multi-trace figure: filter the dataframe to
rows whose group-column value equals `curve_dict[curve_num]` (order preserved),
re-index from 0 (`reset_index(drop=True)`), and take `.iloc[num]`; a single-trace
figure takes `df.iloc[num]` directly.  Out-of-range `.iloc` raises, modelled
`.error .ilocOutOfRange`. -/
def resolveRow (app : App) (curve_num num : Nat) : Except HoverError Row :=
  if app.fig.data.length ≠ 1 then
    match app.curve_dict with
    | none => .error .nameError
    | some cd =>
      match cd.get? curve_num with
      | none => .error .keyError
      | some gv =>
        match app.cfg.color_col with
        | none => .error .nameError
        | some cc =>
          match (app.df.rows.filter (fun r => getCol r cc == some gv)).get? num with
          | some r => .ok r
          | none => .error .ilocOutOfRange
  else
    match app.df.rows.get? num with
    | some r => .ok r
    | none => .error .ilocOutOfRange

/-- Cache lookup of main.py line 328:
`df_data.query(col == smiles)[col + "_img"].values[0]` — filter the cache rows on
the SMILES value, take the first hit, read its image cell.  An empty query result
makes `.values[0]` raise IndexError, modelled `.emptyQuery`. -/
def cacheLookup (df_data : List Row) (col : String) (smiles : Value) :
    Except HoverError String :=
  match df_data.filter (fun r => getCol r col == some smiles) with
  | [] => .error .emptyQuery
  | r :: _ =>
    match getCol r (col ++ "_img") with
    | some (.vStr img) => .ok img
    | some _ => .error .typeError
    | none => .error .keyError

/-- Image blocks of main.py 322-338: for every structure column that is also in the
current selection, look up the cached image of the resolved row's SMILES value. -/
def imageElements (df_data : List Row) (cols chosen : List String) (row : Row) :
    Except HoverError (List Element) :=
  mapE
    (fun col =>
      match getCol row col with
      | some smiles =>
        match cacheLookup df_data col smiles with
        | .ok img => .ok (Element.img img)
        | .error e => .error e
      | none => .error .keyError)
    (cols.filter (fun c => chosen.contains c))

/-- Title text shaping of main.py 341-346: leave the value untouched when its length
is at most `wraplen`; otherwise wrap it (`textwrap.fill`) when `wrap` is set, else
truncate to `wraplen` characters and append an ellipsis marker. -/
def titleText (wrapFlag : Bool) (wraplen : Nat) (t : String) : String :=
  if wraplen < t.length then
    if wrapFlag then textwrapFill wraplen t else strTake t wraplen ++ "..."
  else t

/-- Title block of main.py 340-356: present only when a title column is configured;
the cell must be a string (`len` of a non-string raises) and the accent color is
`colors[curve_num]`. -/
def titleElements (cfg : Config) (colors : List String) (curve_num : Nat) (row : Row) :
    Except HoverError (List Element) :=
  match cfg.title_col with
  | none => .ok []
  | some tc =>
    match getCol row tc with
    | some (.vStr t) =>
      match colors.get? curve_num with
      | some colr => .ok [Element.h2 (titleText cfg.wrap cfg.wraplen t) colr]
      | none => .error .keyError
    | some _ => .error .typeError
    | none => .error .keyError

/-- X-axis caption of main.py 360-382: with a registered transform the block text is
the transform output after `xl` and a spaced colon; without one it is the raw value
after `xl` and an unspaced colon. -/
def xCoordElement (cfg : Config) (xl : String) (x : Value) : Element :=
  match lookupTransform cfg xl with
  | some f => Element.p (xl ++ " : " ++ f x)
  | none => Element.p (xl ++ ": " ++ valueDisplay x)

/-- Y-axis caption of main.py 383-405: a spaced colon in both branches. -/
def yCoordElement (cfg : Config) (yl : String) (y : Value) : Element :=
  match lookupTransform cfg yl with
  | some f => Element.p (yl ++ " : " ++ f y)
  | none => Element.p (yl ++ " : " ++ valueDisplay y)

/-- Axis caption blocks of main.py 357-405, emitted only under `show_coords`,
x before y. -/
def coordElements (cfg : Config) (xl yl : String) (pt : HoverPoint) : List Element :=
  if cfg.show_coords then [xCoordElement cfg xl pt.x, yCoordElement cfg yl pt.y]
  else []

/-- One extra caption block of main.py 406-431: the row's cell for the caption
column, formatted through the registered transform when there is one. -/
def captionElement (cfg : Config) (row : Row) (c : String) : Except HoverError Element :=
  match getCol row c with
  | none => .error .keyError
  | some v =>
    match lookupTransform cfg c with
    | some f => .ok (Element.p (c ++ " : " ++ f v))
    | none => .ok (Element.p (c ++ " : " ++ valueDisplay v))

/-- Extra caption blocks, in the configured order. -/
def captionElements (cfg : Config) (row : Row) : Except HoverError (List Element) :=
  match cfg.caption_cols with
  | none => .ok []
  | some l => mapE (captionElement cfg row) l

/-- main.py `display_hover` (lines 300-442): an empty hover event returns the
no-update triple; otherwise resolve the hovered row, then assemble image blocks,
title block, axis captions and extra captions, in that order.  The constant
`html.Div` wrapper around the children is elided.  The callback has no exception
handler, so any raising step surfaces as `.error`. -/
def display_hover (app : App) (hoverData : Option HoverPoint) (value : SmilesSel) :
    Except HoverError HoverResult :=
  match hoverData with
  | none => .ok ⟨false, none, none⟩
  | some pt =>
    let chosen := match value with | .single s => [s] | .multi l => l
    match resolveRow app pt.curve_num pt.num with
    | .error e => .error e
    | .ok df_row =>
      match (if app.cfg.show_img then
          imageElements app.df_data app.cfg.smiles_col chosen df_row
        else .ok []) with
      | .error e => .error e
      | .ok imgs =>
        match titleElements app.cfg app.colors pt.curve_num df_row with
        | .error e => .error e
        | .ok titles =>
          let coords := coordElements app.cfg app.fig.xLabel app.fig.yLabel pt
          match captionElements app.cfg df_row with
          | .error e => .error e
          | .ok caps => .ok ⟨true, some pt.bbox, some (imgs ++ titles ++ coords ++ caps)⟩

/-! Concrete fixtures used to instantiate the theorems below on closed inputs. -/

/-- Executable chemistry stand-in: every SMILES decodes except the literal "BAD"
(standing for a string RDKit cannot parse), drawing and encoding are tagged string
constructors, so rendered payloads are concretely computable. -/
def exChem : Chem :=
  { decode := fun s => if s = "BAD" then none else some ⟨s⟩
    draw := fun m => "svg:" ++ m.ofSmiles
    b64 := fun s => "b64:" ++ s }

/-- Row 0 of the grouped example dataset. -/
def exRow0 : Row := [("S", .vStr "C"), ("g", .vBool true), ("t", .vStr "one")]

/-- Row 1 of the grouped example dataset. -/
def exRow1 : Row := [("S", .vStr "CC"), ("g", .vBool false), ("t", .vStr "two")]

/-- Row 2 of the grouped example dataset. -/
def exRow2 : Row := [("S", .vStr "CCC"), ("g", .vBool true), ("t", .vStr "three")]

/-- Row 3 of the grouped example dataset. -/
def exRow3 : Row := [("S", .vStr "N"), ("g", .vBool false), ("t", .vStr "four")]

/-- Grouped example dataset: four rows, boolean group column "g". -/
def exDfG : DataFrame :=
  { rows := [exRow0, exRow1, exRow2, exRow3]
    dtype := fun c => if c = "g" then .dbool else .dother }

/-- Two-trace figure produced by coloring on the boolean column "g". -/
def exFigG : Fig :=
  { data := [⟨"True", "blue"⟩, ⟨"False", "red"⟩], xLabel := "xc", yLabel := "yc" }

/-- Configuration of the grouped example. -/
def exCfgG : Config :=
  { smiles_col := ["S"], show_img := true, title_col := some "t", show_coords := true
    caption_cols := none, caption_transform := [], color_col := some "g"
    wrap := true, wraplen := 20 }

/-- Image cache the build loop produces for the grouped example. -/
def exCache : List Row :=
  [[("S", .vStr "C"), ("S_img", .vStr "data:image/svg+xml;base64,b64:svg:C")],
   [("S", .vStr "CC"), ("S_img", .vStr "data:image/svg+xml;base64,b64:svg:CC")],
   [("S", .vStr "CCC"), ("S_img", .vStr "data:image/svg+xml;base64,b64:svg:CCC")],
   [("S", .vStr "N"), ("S_img", .vStr "data:image/svg+xml;base64,b64:svg:N")]]

/-- App state of the grouped example, as `add_molecules` builds it. -/
def exAppG : App :=
  { cfg := exCfgG, fig := exFigG, df := exDfG, df_data := exCache
    curve_dict := some [.vBool true, .vBool false], colors := ["blue", "red"] }

/-- Single-trace figure for the ungrouped example. -/
def exFigS : Fig := { data := [⟨"trace0", "blue"⟩], xLabel := "xc", yLabel := "yc" }

/-- Configuration of the ungrouped example: no color column. -/
def exCfgS : Config := { exCfgG with color_col := none }

/-- App state of the ungrouped example. -/
def exAppS : App :=
  { cfg := exCfgS, fig := exFigS, df := exDfG, df_data := exCache
    curve_dict := none, colors := ["black"] }

/-- Dataset with an undecodable SMILES in its second row. -/
def exDfBad : DataFrame :=
  { rows := [exRow0, [("S", .vStr "BAD"), ("g", .vBool false), ("t", .vStr "oops")]]
    dtype := fun c => if c = "g" then .dbool else .dother }

/-- Anchor rectangle used by the example hover events. -/
def exBBox : BBox := { x0 := 0, y0 := 0, x1 := 10, y1 := 10 }

/-- Hover event on trace 1, in-trace point 0 of the grouped example. -/
def exPt10 : HoverPoint :=
  { bbox := exBBox, num := 0, curve_num := 1, x := .vInt 5, y := .vStr "v" }

/-- Hover event on trace 1 with an out-of-range in-trace point index. -/
def exPtOut : HoverPoint :=
  { bbox := exBBox, num := 7, curve_num := 1, x := .vInt 5, y := .vStr "v" }

/-- Three-trace figure with boolean-looking labels of mixed case plus an
unrecognized label. -/
def exFigB : Fig :=
  { data := [⟨"TRUE", "blue"⟩, ⟨"False", "red"⟩, ⟨"maybe", "green"⟩]
    xLabel := "xc", yLabel := "yc" }

/-- Configuration registering a caption transform for the x-axis column "xc" and
for the extra caption column "t". -/
def exCfgT : Config :=
  { exCfgG with
    caption_cols := some ["t"]
    caption_transform :=
      [("xc", fun v => "T<" ++ valueDisplay v ++ ">"),
       ("t", fun v => "U<" ++ valueDisplay v ++ ">")] }

/-! Helper lemmas about the effectful list map. -/

theorem mapE_error_of_mem {ε α β : Type} (f : α → Except ε β) {l : List α} {a : α} {e : ε}
    (ha : a ∈ l) (hf : f a = .error e) : ∃ e2, mapE f l = .error e2 := by
  induction l with
  | nil => cases ha
  | cons b l ih =>
    rcases List.mem_cons.mp ha with h | h
    · subst h
      exact ⟨e, by simp [mapE, hf]⟩
    · cases hfb : f b with
      | error e3 => exact ⟨e3, by simp [mapE, hfb]⟩
      | ok v =>
        obtain ⟨e2, h2⟩ := ih h
        exact ⟨e2, by simp [mapE, hfb, h2]⟩

theorem mapE_ok_mem {ε α β : Type} (f : α → Except ε β) {l : List α} {l2 : List β}
    (h : mapE f l = .ok l2) {a : α} (ha : a ∈ l) : ∃ b, b ∈ l2 ∧ f a = .ok b := by
  induction l generalizing l2 with
  | nil => cases ha
  | cons c l ih =>
    rw [mapE] at h
    cases hfc : f c with
    | error e => rw [hfc] at h; cases h
    | ok b0 =>
      rw [hfc] at h
      cases hrest : mapE f l with
      | error e => rw [hrest] at h; cases h
      | ok bs =>
        rw [hrest] at h
        cases h
        rcases List.mem_cons.mp ha with h1 | h1
        · subst h1
          exact ⟨b0, List.mem_cons_self _ _, hfc⟩
        · obtain ⟨b, hb1, hb2⟩ := ih hrest h1
          exact ⟨b, List.mem_cons_of_mem _ hb1, hb2⟩

theorem mapE_ok_forall {ε α β : Type} (f : α → Except ε β) {l : List α} {l2 : List β}
    (h : mapE f l = .ok l2) : ∀ b ∈ l2, ∃ a ∈ l, f a = .ok b := by
  induction l generalizing l2 with
  | nil =>
    rw [mapE] at h
    cases h
    intro b hb
    cases hb
  | cons c l ih =>
    rw [mapE] at h
    cases hfc : f c with
    | error e => rw [hfc] at h; cases h
    | ok b0 =>
      rw [hfc] at h
      cases hrest : mapE f l with
      | error e => rw [hrest] at h; cases h
      | ok bs =>
        rw [hrest] at h
        cases h
        intro b hb
        rcases List.mem_cons.mp hb with h1 | h1
        · subst h1
          exact ⟨c, List.mem_cons_self _ _, hfc⟩
        · obtain ⟨a, ha1, ha2⟩ := ih hrest b h1
          exact ⟨a, List.mem_cons_of_mem _ ha1, ha2⟩

/-! Claim theorems. -/

/-- C1: in a grouped (multi-series) chart, for every series index s present in the
curve-to-group map and every in-series point index i in range, `resolveRow` returns
exactly the row at position i of the dataset filtered — with original relative
order preserved and re-indexed from 0 — to rows whose grouping-column value equals
the map's value for s; in particular that row's grouping-column value equals
`curve_dict[s]`, and it is a row of the original dataset. -/
theorem c1_grouped_row_resolution (app : App) (s i : Nat) (cd : List Value)
    (gv : Value) (cc : String) (r : Row)
    (hmulti : app.fig.data.length ≠ 1)
    (hcd : app.curve_dict = some cd)
    (hcc : app.cfg.color_col = some cc)
    (hgv : cd[s]? = some gv)
    (hr : (app.df.rows.filter (fun row => getCol row cc == some gv))[i]? = some r) :
    resolveRow app s i = .ok r ∧ getCol r cc = some gv ∧ r ∈ app.df.rows := by
  have hmem : r ∈ app.df.rows.filter (fun row => getCol row cc == some gv) :=
    List.getElem?_mem hr
  have hpred := List.mem_filter.mp hmem
  refine ⟨?_, eq_of_beq hpred.2, hpred.1⟩
  simp [resolveRow, hmulti, hcd, hgv, hcc, hr]

/-- C1 witness: on the grouped example, hovering series 1 (group value `False`),
point 0 resolves to the first row whose "g" cell is false — row 1 of the dataset,
not absolute row 0. -/
theorem c1_witness :
    resolveRow exAppG 1 0 = .ok exRow1 ∧ getCol exRow1 "g" = some (.vBool false)
      ∧ exRow1 ∈ exDfG.rows :=
  c1_grouped_row_resolution exAppG 1 0 [.vBool true, .vBool false] (.vBool false) "g"
    exRow1 (by decide) rfl rfl (by decide) (by decide)

/-- C2: in an ungrouped chart (exactly one series), resolving series 0 at point
index i returns exactly the dataset row at absolute position i, in original order,
with no filtering. -/
theorem c2_ungrouped_row_resolution (app : App) (i : Nat) (r : Row)
    (hsingle : app.fig.data.length = 1)
    (hr : app.df.rows[i]? = some r) :
    resolveRow app 0 i = .ok r := by
  simp [resolveRow, hsingle, hr]

/-- C2 witness: on the ungrouped example, point index 2 resolves to row 2. -/
theorem c2_witness : resolveRow exAppS 0 2 = .ok exRow2 :=
  c2_ungrouped_row_resolution exAppS 2 exRow2 (by decide) (by decide)

/-- C3: a figure with more than one plotted series and no grouping column makes
setup fail with the configuration error (the `ValueError` of main.py line 259),
provided the image-cache build itself succeeded; no app is returned, so no hover
event can ever be processed. -/
theorem c3_multi_series_requires_color_col (chem : Chem) (fig : Fig) (df : DataFrame)
    (cfg : Config) (d : List Row)
    (hb : buildCache chem cfg.smiles_col df.rows = .ok d)
    (hmulti : 1 < fig.data.length)
    (hcc : cfg.color_col = none) :
    add_molecules chem fig df cfg = .error .configError
      ∧ ∀ app, add_molecules chem fig df cfg ≠ .ok app := by
  have hne : fig.data.length ≠ 1 := by omega
  have h1 : add_molecules chem fig df cfg = .error .configError := by
    simp [add_molecules, hb, hne, hcc]
  exact ⟨h1, fun app h2 => by rw [h1] at h2; cases h2⟩

/-- C3 witness: the grouped example with `color_col` removed fails at setup. -/
theorem c3_witness :
    add_molecules exChem exFigG exDfG { exCfgG with color_col := none }
        = .error .configError
      ∧ ∀ app, add_molecules exChem exFigG exDfG { exCfgG with color_col := none }
        ≠ .ok app :=
  c3_multi_series_requires_color_col exChem exFigG exDfG _ exCache (by decide)
    (by decide) rfl

/-- C4 counterexample: hovering the grouped example on series 1 with the
out-of-range in-series point index 7 makes `display_hover` raise the uncaught
IndexError of `df_curve.iloc[num]` (main.py line 316) instead of returning the
"nothing to show" result (visibility false, content none) the claim promises. -/
theorem c4_counterexample :
    display_hover exAppG (some exPtOut) (.single "S") = .error .ilocOutOfRange
      ∧ display_hover exAppG (some exPtOut) (.single "S") ≠ .ok ⟨false, none, none⟩ := by
  decide

/-- C4 amended: an in-series point index out of range for the resolved subset
(grouped or ungrouped) makes the hover handler raise an uncaught index error — the
error propagates out of the callback; the "nothing to show" triple is returned only
for the empty hover event (`hoverData is None`, main.py lines 301-302). -/
theorem c4_out_of_range_raises (app : App) (pt : HoverPoint) (value : SmilesSel)
    (cd : List Value) (gv : Value) (cc : String) :
    (app.fig.data.length ≠ 1 → app.curve_dict = some cd → app.cfg.color_col = some cc →
      cd[pt.curve_num]? = some gv →
      (app.df.rows.filter (fun r => getCol r cc == some gv)).length ≤ pt.num →
      display_hover app (some pt) value = .error .ilocOutOfRange)
    ∧ (app.fig.data.length = 1 → app.df.rows.length ≤ pt.num →
      display_hover app (some pt) value = .error .ilocOutOfRange)
    ∧ display_hover app none value = .ok ⟨false, none, none⟩ := by
  refine ⟨?_, ?_, rfl⟩
  · intro hmulti hcd hcc hgv hout
    have hnone : (app.df.rows.filter (fun r => getCol r cc == some gv))[pt.num]? = none :=
      List.getElem?_eq_none_iff.mpr hout
    have hres : resolveRow app pt.curve_num pt.num = .error .ilocOutOfRange := by
      simp [resolveRow, hmulti, hcd, hgv, hcc, hnone]
    simp [display_hover, hres]
  · intro hsingle hout
    have hnone : app.df.rows[pt.num]? = none := List.getElem?_eq_none_iff.mpr hout
    have hres : resolveRow app pt.curve_num pt.num = .error .ilocOutOfRange := by
      simp [resolveRow, hsingle, hnone]
    simp [display_hover, hres]

/-- C4 witness: the amended statement applied to the grouped example (series 1 has
2 in-series points, index 7 is out of range). -/
theorem c4_witness :
    display_hover exAppG (some exPtOut) (.single "S") = .error .ilocOutOfRange :=
  (c4_out_of_range_raises exAppG exPtOut (.single "S") [.vBool true, .vBool false]
    (.vBool false) "g").1 (by decide) rfl rfl (by decide) (by decide)

/-- C7: the title value is emitted untouched when its length is at most the wrap
threshold (boundary included), wrapped with `textwrap.fill` when it exceeds the
threshold and wrapping is enabled, and truncated to the threshold with an appended
ellipsis marker when it exceeds the threshold and wrapping is disabled. -/
theorem c7_title_threshold (w : Bool) (n : Nat) (t : String) :
    (t.length ≤ n → titleText w n t = t)
    ∧ (n < t.length → w = true → titleText w n t = textwrapFill n t)
    ∧ (n < t.length → w = false → titleText w n t = strTake t n ++ "...") := by
  refine ⟨?_, ?_, ?_⟩
  · intro h
    simp [titleText, Nat.not_lt.mpr h]
  · intro h hw
    subst hw
    simp [titleText, h]
  · intro h hw
    subst hw
    simp [titleText, h]

/-- C7 witness: a title exactly at the threshold is untouched; a longer one is
wrapped when wrapping is on and truncated with an ellipsis when it is off. -/
theorem c7_witness :
    titleText true 5 "abcde" = "abcde"
      ∧ titleText true 5 "ab cdefg" = "ab\ncdefg"
      ∧ titleText false 5 "abcdefg" = "abcde..." := by
  refine ⟨(c7_title_threshold true 5 "abcde").1 (by decide), ?_, ?_⟩
  · exact ((c7_title_threshold true 5 "ab cdefg").2.1 (by decide) rfl).trans (by decide)
  · exact ((c7_title_threshold false 5 "abcdefg").2.2 (by decide) rfl).trans (by decide)

/-- C9: a caption field with a registered value transform emits exactly the
label, a spaced colon, and the transform's output — the branch that would apply the
default raw-value formatting is not taken, so the raw value appears only through
the transform and no further formatting touches the transform's output. -/
theorem c9_transform_verbatim (cfg : Config) (xl yl c : String) (x y v : Value)
    (row : Row) (pt : HoverPoint) (f g fc : Value → String) :
    (lookupTransform cfg xl = some f →
      xCoordElement cfg xl x = Element.p (xl ++ " : " ++ f x))
    ∧ (lookupTransform cfg yl = some g →
      yCoordElement cfg yl y = Element.p (yl ++ " : " ++ g y))
    ∧ (lookupTransform cfg c = some fc → getCol row c = some v →
      captionElement cfg row c = .ok (Element.p (c ++ " : " ++ fc v)))
    ∧ (cfg.show_coords = true →
      coordElements cfg xl yl pt = [xCoordElement cfg xl pt.x, yCoordElement cfg yl pt.y]) := by
  refine ⟨?_, ?_, ?_, ?_⟩
  · intro h
    simp [xCoordElement, h]
  · intro h
    simp [yCoordElement, h]
  · intro h hv
    simp [captionElement, hv, h]
  · intro h
    simp [coordElements, h]

/-- C9 witness: on the transform-carrying configuration, the x-axis caption and the
extra caption for column "t" contain the transform outputs verbatim. -/
theorem c9_witness :
    xCoordElement exCfgT "xc" (.vStr "5") = Element.p "xc : T<5>"
      ∧ captionElement exCfgT exRow2 "t" = .ok (Element.p "t : U<three>") := by
  constructor
  · exact ((c9_transform_verbatim exCfgT "xc" "yc" "t" (.vStr "5") (.vStr "5")
      (.vStr "three") exRow2 exPt10 (fun v => "T<" ++ valueDisplay v ++ ">")
      (fun v => "T<" ++ valueDisplay v ++ ">")
      (fun v => "U<" ++ valueDisplay v ++ ">")).1 rfl).trans (by decide)
  · exact ((c9_transform_verbatim exCfgT "xc" "yc" "t" (.vStr "5") (.vStr "5")
      (.vStr "three") exRow2 exPt10 (fun v => "T<" ++ valueDisplay v ++ ">")
      (fun v => "T<" ++ valueDisplay v ++ ">")
      (fun v => "U<" ++ valueDisplay v ++ ">")).2.2.1 rfl (by decide)).trans (by decide)

theorem str2bool_spellout (v : String) :
    str2bool v = decide (pyLower v = "yes" ∨ pyLower v = "true" ∨ pyLower v = "t"
      ∨ pyLower v = "1") := by
  simp [str2bool]

theorem mapE_coerce_dbool (l : List SeriesData) :
    mapE (fun x => coerceLabel DType.dbool x.name) l
      = .ok (l.map (fun x => Value.vBool (str2bool x.name))) := by
  induction l with
  | nil => rfl
  | cons a l ih =>
    rw [mapE, ih]
    rfl

/-- C10: when the grouping column's declared dtype is boolean, label coercion never
raises — setup succeeds for every series label — and the curve-to-group map sends a
series to true exactly when its lowercased label is one of "yes", "true", "t", "1";
every other label, including "False" and any unrecognized or misspelled one,
silently maps to false. -/
theorem c10_bool_label_coercion (chem : Chem) (fig : Fig) (df : DataFrame)
    (cfg : Config) (cc : String) (d : List Row)
    (hb : buildCache chem cfg.smiles_col df.rows = .ok d)
    (hmulti : fig.data.length ≠ 1)
    (hcc : cfg.color_col = some cc)
    (hdt : df.dtype cc = .dbool) :
    add_molecules chem fig df cfg
      = .ok ⟨cfg, fig, df, d,
          some (fig.data.map (fun x =>
            Value.vBool (decide (pyLower x.name = "yes" ∨ pyLower x.name = "true"
              ∨ pyLower x.name = "t" ∨ pyLower x.name = "1")))),
          fig.data.map (fun x => x.color)⟩ := by
  simp [add_molecules, hb, hmulti, hcc, hdt, mapE_coerce_dbool, str2bool_spellout]

/-- C10 witness: labels "TRUE", "False", "maybe" coerce to true, false, false. -/
theorem c10_witness :
    add_molecules exChem exFigB exDfG exCfgG
      = .ok ⟨exCfgG, exFigB, exDfG, exCache,
          some [.vBool true, .vBool false, .vBool false], ["blue", "red", "green"]⟩ :=
  c10_bool_label_coercion exChem exFigB exDfG exCfgG "g" exCache (by decide)
    (by decide) rfl rfl

/-- C5 counterexample: a dataset whose second row's SMILES cell does not decode
makes the cache-build loop raise at that cell, aborting the whole build and with it
the whole `add_molecules` setup — instead of skipping that (row, column) pair and
completing the rest of the cache as the claim states. -/
theorem c5_counterexample :
    buildCache exChem ["S"] exDfBad.rows = .error .decodeError
      ∧ add_molecules exChem exFigG exDfBad exCfgG = .error .decodeError :=
  ⟨rfl, rfl⟩

/-- C5 amended: a structure cell that fails to decode is not skipped — it aborts
the image-cache build with an error, which aborts `add_molecules`: no cache for the
remaining rows and no app are produced. -/
theorem c5_decode_failure_aborts (chem : Chem) (fig : Fig) (df : DataFrame)
    (cfg : Config) (r : Row) (col : String) (s : String)
    (hr : r ∈ df.rows) (hcol : col ∈ cfg.smiles_col)
    (hs : getCol r col = some (.vStr s)) (hdec : chem.decode s = none) :
    (∃ e, buildCache chem cfg.smiles_col df.rows = .error e)
      ∧ ∃ e, add_molecules chem fig df cfg = .error e := by
  have hcell : processCell chem r col = .error .decodeError := by
    simp [processCell, hs, hdec]
  obtain ⟨e1, h1⟩ := mapE_error_of_mem _ hcol hcell
  have hrow : processRow chem cfg.smiles_col r = .error e1 := by
    simp [processRow, h1]
  obtain ⟨e2, h2⟩ := mapE_error_of_mem _ hr hrow
  refine ⟨⟨e2, by simpa [buildCache] using h2⟩, e2, ?_⟩
  simp [add_molecules, buildCache, h2]

/-- C5 witness: the amended statement applied to the dataset with the undecodable
second row. -/
theorem c5_witness :
    (∃ e, buildCache exChem exCfgG.smiles_col exDfBad.rows = .error e)
      ∧ ∃ e, add_molecules exChem exFigG exDfBad exCfgG = .error e :=
  c5_decode_failure_aborts exChem exFigG exDfBad exCfgG
    [("S", .vStr "BAD"), ("g", .vBool false), ("t", .vStr "oops")] "S" "BAD"
    (by decide) (by decide) (by decide) (by decide)

/-! Helper lemmas about the image cache rows (claim C6). -/

theorem string_append_cancel_right {a b s : String} (h : a ++ s = b ++ s) : a = b := by
  have hd : a.data ++ s.data = b.data ++ s.data := congrArg String.data h
  have h2 : a.data = b.data := List.append_cancel_right hd
  cases a
  cases b
  exact congrArg String.mk h2

theorem getCol_append (l1 l2 : Row) (c : String) :
    getCol (l1 ++ l2) c = (getCol l1 c).or (getCol l2 c) := by
  induction l1 with
  | nil => simp [getCol]
  | cons q l1 ih =>
    obtain ⟨k, v⟩ := q
    by_cases h : k = c
    · simp [getCol, h]
    · simp [getCol, h, ih]

theorem getCol_valueCells (cols : List String) (r : Row) (c : String) (v : Value)
    (hc : c ∈ cols) (hv : getCol r c = some v) :
    getCol (cols.filterMap (fun c2 => (getCol r c2).map (fun w => (c2, w)))) c = some v := by
  induction cols with
  | nil => cases hc
  | cons a cols ih =>
    by_cases hac : a = c
    · subst hac
      simp only [List.filterMap_cons, hv, Option.map_some]
      simp [getCol]
    · have hc2 : c ∈ cols := List.mem_of_ne_of_mem (fun h => hac h.symm) hc
      cases hga : getCol r a with
      | none =>
        simp only [List.filterMap_cons, hga, Option.map_none]
        exact ih hc2
      | some w =>
        simp only [List.filterMap_cons, hga, Option.map_some, getCol, hac, if_false]
        exact ih hc2

theorem getCol_valueCells_none (cols : List String) (r : Row) (k : String)
    (hk : ∀ c ∈ cols, c ≠ k) :
    getCol (cols.filterMap (fun c2 => (getCol r c2).map (fun w => (c2, w)))) k = none := by
  induction cols with
  | nil => rfl
  | cons a cols ih =>
    have ha : a ≠ k := hk a (List.mem_cons_self a cols)
    have htail := ih (fun c hc => hk c (List.mem_cons_of_mem _ hc))
    cases hga : getCol r a with
    | none =>
      simp only [List.filterMap_cons, hga, Option.map_none]
      exact htail
    | some w =>
      simp only [List.filterMap_cons, hga, Option.map_some, getCol, ha, if_false]
      exact htail

theorem processCell_ok_shape (chem : Chem) (r : Row) (a : String) (p : String × Value)
    (h : processCell chem r a = .ok p) :
    ∃ s m, getCol r a = some (.vStr s) ∧ chem.decode s = some m
      ∧ p = (a ++ "_img", .vStr (imgStr chem m)) := by
  unfold processCell at h
  split at h
  next s heq =>
    split at h
    next m hm =>
      cases h
      exact ⟨s, m, heq, hm, rfl⟩
    next hm => cases h
  next w heq hw => cases h
  next heq => cases h

theorem getCol_imgs (chem : Chem) (r : Row) (cols : List String)
    (imgs : List (String × Value)) (col s : String) (m : Mol)
    (h : mapE (processCell chem r) cols = .ok imgs)
    (hcol : col ∈ cols) (hs : getCol r col = some (.vStr s))
    (hm : chem.decode s = some m) :
    getCol imgs (col ++ "_img") = some (.vStr (imgStr chem m)) := by
  induction cols generalizing imgs with
  | nil => cases hcol
  | cons a cols ih =>
    rw [mapE] at h
    cases hfa : processCell chem r a with
    | error e => rw [hfa] at h; cases h
    | ok p =>
      rw [hfa] at h
      cases hrest : mapE (processCell chem r) cols with
      | error e => rw [hrest] at h; cases h
      | ok ps =>
        rw [hrest] at h
        cases h
        obtain ⟨s2, m2, hga, hm2, hp⟩ := processCell_ok_shape chem r a p hfa
        subst hp
        by_cases hac : a = col
        · subst hac
          rw [hga] at hs
          cases hs
          rw [hm] at hm2
          cases hm2
          simp [getCol]
        · have hkey : a ++ "_img" ≠ col ++ "_img" :=
            fun hkey => hac (string_append_cancel_right hkey)
          have hcol2 : col ∈ cols := List.mem_of_ne_of_mem (fun h1 => hac h1.symm) hcol
          simp only [getCol, hkey, if_false]
          exact ih ps hrest hcol2

theorem processRow_cells (chem : Chem) (cols : List String) (r r2 : Row)
    (h : processRow chem cols r = .ok r2) (col s : String) (m : Mol)
    (hcol : col ∈ cols) (hni : ∀ c ∈ cols, c ≠ col ++ "_img")
    (hs : getCol r col = some (.vStr s)) (hm : chem.decode s = some m) :
    getCol r2 col = some (.vStr s)
      ∧ getCol r2 (col ++ "_img") = some (.vStr (imgStr chem m)) := by
  unfold processRow at h
  cases himgs : mapE (processCell chem r) cols with
  | error e => rw [himgs] at h; cases h
  | ok imgs =>
    rw [himgs] at h
    cases h
    constructor
    · rw [getCol_append, getCol_valueCells cols r col (.vStr s) hcol hs]
      rfl
    · rw [getCol_append, getCol_valueCells_none cols r (col ++ "_img") hni]
      simpa using getCol_imgs chem r cols imgs col s m himgs hcol hs hm

/-- C6: the cache-build loop stores, for every decodable (row, structure-column)
pair, the image rendered from that row's own cell, under the column's image key
(first conjunct); and the hover-path lookup on the hovered row's SMILES value
returns exactly that stored payload (second conjunct).  The lookup of main.py
line 328 keys on the SMILES value rather than on the row position, but every cache
row carrying the same SMILES stores the identical rendered payload, so the value
returned is the image stored for the hovered (row, column) pair. -/
theorem c6_cache_key_lookup (chem : Chem) (cols : List String) (rows d : List Row)
    (r : Row) (col s : String) (m : Mol)
    (hb : buildCache chem cols rows = .ok d)
    (hr : r ∈ rows) (hcol : col ∈ cols)
    (hni : ∀ c ∈ cols, c ≠ col ++ "_img")
    (hs : getCol r col = some (.vStr s))
    (hm : chem.decode s = some m) :
    processCell chem r col = .ok (col ++ "_img", .vStr (imgStr chem m))
      ∧ cacheLookup d col (.vStr s) = .ok (imgStr chem m) := by
  refine ⟨by simp [processCell, hs, hm], ?_⟩
  obtain ⟨r2, hr2d, hr2⟩ := mapE_ok_mem (processRow chem cols) hb hr
  have hcells := processRow_cells chem cols r r2 hr2 col s m hcol hni hs hm
  have hmem : r2 ∈ d.filter (fun row => getCol row col == some (.vStr s)) :=
    List.mem_filter.mpr ⟨hr2d, by rw [hcells.1]; exact beq_self_eq_true _⟩
  cases hfl : d.filter (fun row => getCol row col == some (.vStr s)) with
  | nil => rw [hfl] at hmem; cases hmem
  | cons x xs =>
    have hxin : x ∈ d ∧ (getCol x col == some (.vStr s)) = true := by
      have hx2 : x ∈ d.filter (fun row => getCol row col == some (.vStr s)) := by
        rw [hfl]
        exact List.mem_cons_self _ _
      exact List.mem_filter.mp hx2
    have hxcol : getCol x col = some (.vStr s) := eq_of_beq hxin.2
    obtain ⟨r0, hr0, hpr0⟩ := mapE_ok_forall (processRow chem cols) hb x hxin.1
    have hinner : ∃ imgs0, mapE (processCell chem r0) cols = .ok imgs0 := by
      unfold processRow at hpr0
      cases hmm : mapE (processCell chem r0) cols with
      | error e => rw [hmm] at hpr0; cases hpr0
      | ok imgs0 => exact ⟨imgs0, rfl⟩
    obtain ⟨imgs0, himgs0⟩ := hinner
    obtain ⟨p0, _, hp0⟩ := mapE_ok_mem (processCell chem r0) himgs0 hcol
    obtain ⟨s0, m0, hga0, hm0, _⟩ := processCell_ok_shape chem r0 col p0 hp0
    have hcells0 := processRow_cells chem cols r0 x hpr0 col s0 m0 hcol hni hga0 hm0
    have hseq : s0 = s := by
      have h1 := hcells0.1
      rw [hxcol] at h1
      cases h1
      rfl
    subst hseq
    have hmeq : m0 = m := by
      rw [hm] at hm0
      cases hm0
      rfl
    subst hmeq
    simp [cacheLookup, hfl, hcells0.2]

/-- C6 witness: on the grouped example, the lookup for row 2's SMILES "CCC" in the
built cache returns the payload stored for (row 2, column "S"). -/
theorem c6_witness :
    processCell exChem exRow2 "S"
        = .ok ("S_img", .vStr "data:image/svg+xml;base64,b64:svg:CCC")
      ∧ cacheLookup exCache "S" (.vStr "CCC")
        = .ok "data:image/svg+xml;base64,b64:svg:CCC" :=
  c6_cache_key_lookup exChem ["S"] exDfG.rows exCache exRow2 "S" "CCC" ⟨"CCC"⟩
    (by decide) (by decide) (by decide) (by decide) (by decide) (by decide)

/-! Helper lemmas about the wrapping loop (claim C8). -/

theorem sumLen_nil : sumLen [] = 0 := rfl

theorem sumLen_cons (a : String) (l : List String) :
    sumLen (a :: l) = a.length + sumLen l := rfl

theorem sumLen_dropLast (l : List String) : sumLen l.dropLast ≤ sumLen l := by
  induction l with
  | nil => simp [sumLen]
  | cons a l ih =>
    cases l with
    | nil => simp [sumLen]
    | cons b l2 =>
      rw [List.dropLast_cons₂, sumLen_cons, sumLen_cons]
      exact Nat.add_le_add_left ih _

theorem sumLen_dropTrailingWs (l : List String) :
    sumLen (dropTrailingWs l) ≤ sumLen l := by
  unfold dropTrailingWs
  cases hl : l.getLast? with
  | none => exact le_refl _
  | some x =>
    by_cases hx : isSpaceChunk x
    · simp only [hx, if_true]
      exact sumLen_dropLast l
    · simp [hx]

theorem foldl_append_length (l : List String) (init : String) :
    (l.foldl (fun r s => r ++ s) init).length = init.length + sumLen l := by
  induction l generalizing init with
  | nil => simp [sumLen]
  | cons a l ih =>
    rw [List.foldl_cons, ih, sumLen_cons]
    simp
    omega

theorem string_join_length (l : List String) : (String.join l).length = sumLen l := by
  simpa using foldl_append_length l ""

theorem strTake_length (c : String) (n : Nat) : (strTake c n).length ≤ n := by
  simp [strTake]

theorem strDrop_length (c : String) (n : Nat) :
    (strDrop c n).length = c.length - n := by
  simp [strDrop]

theorem fillLine_sumLen (width : Nat) (hw : 1 ≤ width) :
    ∀ (chunks : List String) (curLen : Nat), curLen ≤ width →
      curLen + sumLen (fillLine width curLen chunks).1 ≤ width := by
  intro chunks
  induction chunks with
  | nil =>
    intro curLen h
    simpa [fillLine, sumLen] using h
  | cons c cs ih =>
    intro curLen hcur
    simp only [fillLine]
    split
    next h1 =>
      rw [sumLen_cons]
      have h2 := ih (curLen + c.length) h1
      omega
    next h1 =>
      split
      next h2 =>
        have h3 := strTake_length c (width - curLen)
        simp only [sumLen_cons, sumLen_nil]
        omega
      next h2 =>
        simpa [sumLen] using hcur

theorem wrapGo_line_le (width : Nat) (hw : 1 ≤ width) :
    ∀ (fuel : Nat) (chunks : List String) (emitted : Bool),
      ∀ l ∈ wrapGo width fuel chunks emitted, l.length ≤ width := by
  intro fuel
  induction fuel with
  | zero =>
    intro chunks emitted l hl
    simp [wrapGo] at hl
  | succ fuel ih =>
    intro chunks emitted l hl
    cases chunks with
    | nil => simp [wrapGo] at hl
    | cons c cs =>
      rw [wrapGo] at hl
      by_cases hline :
          (dropTrailingWs
            (fillLine width 0 (if emitted && isSpaceChunk c then cs else c :: cs)).1).isEmpty
      · rw [if_pos hline] at hl
        exact ih _ _ l hl
      · rw [if_neg hline] at hl
        rcases List.mem_cons.mp hl with h | h
        · subst h
          rw [string_join_length]
          have hb := fillLine_sumLen width hw
            (if emitted && isSpaceChunk c then cs else c :: cs) 0 (Nat.zero_le _)
          have hd := sumLen_dropTrailingWs
            (fillLine width 0 (if emitted && isSpaceChunk c then cs else c :: cs)).1
          omega
        · exact ih _ _ l h

theorem chunkMeasure_nil : chunkMeasure [] = 0 := rfl

theorem chunkMeasure_cons (a : String) (l : List String) :
    chunkMeasure (a :: l) = a.length + 1 + chunkMeasure l := rfl

theorem fillLine_rest_measure (width : Nat) :
    ∀ (chunks : List String) (curLen : Nat),
      chunkMeasure (fillLine width curLen chunks).2 ≤ chunkMeasure chunks := by
  intro chunks
  induction chunks with
  | nil =>
    intro curLen
    simp [fillLine]
  | cons c cs ih =>
    intro curLen
    simp only [fillLine]
    split
    next h1 =>
      dsimp only
      have h2 := ih (curLen + c.length)
      rw [chunkMeasure_cons]
      omega
    next h1 =>
      split
      next h2 =>
        rw [chunkMeasure_cons, chunkMeasure_cons, strDrop_length]
        omega
      next h2 => exact le_refl _

theorem fillLine_rest_measure_lt (width : Nat) (c : String) (cs : List String) :
    chunkMeasure (fillLine width 0 (c :: cs)).2 < chunkMeasure (c :: cs) := by
  simp only [fillLine]
  split
  next h1 =>
    dsimp only
    have h2 := fillLine_rest_measure width cs (0 + c.length)
    rw [chunkMeasure_cons]
    omega
  next h1 =>
    split
    next h2 =>
      rw [chunkMeasure_cons, chunkMeasure_cons, strDrop_length]
      have hsl : 1 ≤ (if 1 ≤ width then width - 0 else 1) := by
        split
        next hww => omega
        next hww => omega
      omega
    next h2 => omega

theorem wrapGo_stable (width : Nat) :
    ∀ (k : Nat) (chunks : List String), chunkMeasure chunks ≤ k →
      ∀ (f1 f2 : Nat) (emitted : Bool),
        chunkMeasure chunks < f1 → chunkMeasure chunks < f2 →
        wrapGo width f1 chunks emitted = wrapGo width f2 chunks emitted := by
  intro k
  induction k with
  | zero =>
    intro chunks hk f1 f2 emitted h1 h2
    cases chunks with
    | nil =>
      cases f1 with
      | zero => rw [chunkMeasure_nil] at h1; omega
      | succ g1 =>
        cases f2 with
        | zero => rw [chunkMeasure_nil] at h2; omega
        | succ g2 => rfl
    | cons c cs =>
      rw [chunkMeasure_cons] at hk
      omega
  | succ k ih =>
    intro chunks hk f1 f2 emitted h1 h2
    cases chunks with
    | nil =>
      cases f1 with
      | zero => rw [chunkMeasure_nil] at h1; omega
      | succ g1 =>
        cases f2 with
        | zero => rw [chunkMeasure_nil] at h2; omega
        | succ g2 => rfl
    | cons c cs =>
      cases f1 with
      | zero => exact absurd h1 (Nat.not_lt_zero _)
      | succ g1 =>
        cases f2 with
        | zero => exact absurd h2 (Nat.not_lt_zero _)
        | succ g2 =>
          rw [wrapGo, wrapGo]
          have hrest : chunkMeasure (fillLine width 0
              (if emitted && isSpaceChunk c then cs else c :: cs)).2
              < chunkMeasure (c :: cs) := by
            by_cases hdrop : (emitted && isSpaceChunk c) = true
            · rw [if_pos hdrop]
              have h3 := fillLine_rest_measure width cs 0
              rw [chunkMeasure_cons]
              omega
            · rw [if_neg hdrop]
              exact fillLine_rest_measure_lt width c cs
          have hk2 : chunkMeasure (fillLine width 0
              (if emitted && isSpaceChunk c then cs else c :: cs)).2 ≤ k := by
            omega
          have hg1 : chunkMeasure (fillLine width 0
              (if emitted && isSpaceChunk c then cs else c :: cs)).2 < g1 := by
            omega
          have hg2 : chunkMeasure (fillLine width 0
              (if emitted && isSpaceChunk c then cs else c :: cs)).2 < g2 := by
            omega
          by_cases hline : (dropTrailingWs (fillLine width 0
              (if emitted && isSpaceChunk c then cs else c :: cs)).1).isEmpty = true
          · rw [if_pos hline, if_pos hline]
            exact ih _ hk2 g1 g2 emitted hg1 hg2
          · rw [if_neg hline, if_neg hline]
            rw [ih _ hk2 g1 g2 true hg1 hg2]

/-- Fuel sufficiency: every fuel above the chunk measure computes the same lines as
the fuel `wrapLines` uses, because each loop iteration strictly decreases the
measure — so the fuel bound is an implementation device, not part of the modelled
behavior of `textwrap.wrap`. -/
theorem wrapLines_fuel_irrelevant (width : Nat) (chunks : List String) (n : Nat)
    (hn : chunkMeasure chunks < n) :
    wrapGo width n chunks false = wrapLines width chunks := by
  unfold wrapLines
  exact wrapGo_stable width (chunkMeasure chunks) chunks (le_refl _) n
    (chunkMeasure chunks + 1) false hn (Nat.lt_succ_self _)

/-- C8 counterexample: the input "aaaaaaa" consists of a single 7-character word;
wrapping it at width 5 (the path `display_hover` takes for a too-long title with
wrapping on) produces the lines "aaaaa" and "aa".  The first line is a proper
fragment of the input's only word, so the line break was inserted mid-word —
refuting "inserts line breaks only at word boundaries (never mid-word)" (Python
`textwrap.fill` breaks words longer than the width by default). -/
theorem c8_counterexample :
    wordsOf "aaaaaaa" = ["aaaaaaa"]
      ∧ wrapLines 5 (mkChunks "aaaaaaa") = ["aaaaa", "aa"]
      ∧ textwrapFill 5 "aaaaaaa" = "aaaaa\naa"
      ∧ ¬ "aaaaa" ∈ wordsOf "aaaaaaa"
      ∧ titleText true 5 "aaaaaaa" = "aaaaa\naa" := by
  decide

/-- C8 amended: for a positive wrap width, no produced line exceeds the configured
width — but breaks are not always at word boundaries: a word longer than the width
is broken mid-word (counterexample above), which is exactly what keeps the width
bound true for long words. -/
theorem c8_wrap_width_bound (width : Nat) (s : String) (hw : 1 ≤ width) :
    (∀ l ∈ wrapLines width (mkChunks s), l.length ≤ width)
      ∧ textwrapFill width s = String.intercalate "\n" (wrapLines width (mkChunks s)) :=
  ⟨fun l hl => wrapGo_line_le width hw _ _ _ l hl, rfl⟩

/-- C8 witness: the width bound evaluated at width 5 on "aaaaaaa". -/
theorem c8_witness :
    (∀ l ∈ wrapLines 5 (mkChunks "aaaaaaa"), l.length ≤ 5)
      ∧ wrapLines 5 (mkChunks "aaaaaaa") = ["aaaaa", "aa"] :=
  ⟨(c8_wrap_width_bound 5 "aaaaaaa" (by decide)).1, by decide⟩

end Molplotly
